import Mathlib

/-!
Shallow embedding of the bank-statement extraction/normalization pipeline
(`backend/app/services/parser.py` and `backend/app/services/processor.py`)
together with proofs of the specification claims about it.

Python values flowing through the pipeline (JSON null, strings, integers and
`datetime.date` objects) are modelled by the inductive type `Value`; Python
`Decimal` amounts are modelled by `ℚ`; Python dicts by association lists in
insertion order (keys are unique in every dict the pipeline builds, so
first-match lookup coincides with dict lookup).
-/

namespace BankParser

/-- A Python `datetime.date`. -/
structure PyDate where
  year : Nat
  month : Nat
  day : Nat
deriving DecidableEq, Repr

/-- A value appearing in an extracted row / detail mapping: JSON null,
a string, an integer, or an already-typed date. -/
inductive Value where
  | vnull : Value
  | vstr : String → Value
  | vint : Int → Value
  | vdate : PyDate → Value
deriving DecidableEq, Repr

/-- A raw transaction row: a Python dict in insertion order. -/
abbrev Row := List (String × Value)

/-- Python dict `.get(k)` / `k in d` combined: first binding for `k`. -/
def rowGet (r : Row) (k : String) : Option Value :=
  match r with
  | [] => none
  | (k', v) :: rest => if k' = k then some v else rowGet rest k

/-- Python truthiness of a `Value` (`bool(v)`). -/
def Value.truthy : Value → Bool
  | .vnull => false
  | .vstr s => !(s = "")
  | .vint n => !(n = 0)
  | .vdate _ => true

/-- Zero-padding for date rendering. -/
def padNum (width : Nat) (n : Nat) : String :=
  let s := toString n
  if s.length < width then String.mk (List.replicate (width - s.length) '0') ++ s else s

/-- Python `str(date)`: ISO `YYYY-MM-DD`. -/
def PyDate.toIso (d : PyDate) : String :=
  padNum 4 d.year ++ "-" ++ padNum 2 d.month ++ "-" ++ padNum 2 d.day

/-- Python `str(v)` for the values we model (`str(None) = "None"`). -/
def Value.pyStr : Value → String
  | .vnull => "None"
  | .vstr s => s
  | .vint n => toString n
  | .vdate d => d.toIso

/-- Lowercase a string character-wise (ASCII lowering, as all pipeline
string constants are ASCII; non-ASCII characters are left unchanged,
matching `str.lower` on the inputs the pipeline compares). -/
def lowerStr (s : String) : String := ⟨s.data.map Char.toLower⟩

/-- Uppercase a string character-wise. -/
def upperStr (s : String) : String := ⟨s.data.map Char.toUpper⟩

/-- ASCII whitespace stripped by Python `str.strip()`. -/
def isPySpace (c : Char) : Bool :=
  c = ' ' || c = '\t' || c = '\n' || c = '\r' || c = '\x0b' || c = '\x0c'

/-- Python `str.strip()` (whitespace trim at both ends). -/
def pyStrip (s : String) : String :=
  ⟨((s.data.dropWhile isPySpace).reverse.dropWhile isPySpace).reverse⟩

/-- `needle` occurs as a contiguous substring of `hay`
(Python `needle in hay`; the empty needle always matches). -/
def containsSub (needle : List Char) : List Char → Bool
  | [] => needle.isEmpty
  | c :: rest => needle.isPrefixOf (c :: rest) || containsSub needle rest

/-- Python `pat in hay` on strings. -/
def strContains (hay pat : String) : Bool := containsSub pat.data hay.data

/-! ### Amount parsing (`StatementParser._parse_amount`) -/

/-- Characters kept by the regex `re.sub(r'[^\d.+-]', '', value)`. -/
def keptAmountChar (c : Char) : Bool := c.isDigit || c = '.' || c = '+' || c = '-'

/-- The cleaning step of `_parse_amount`: strip every character except
digits, sign characters and the decimal point. -/
def stripAmountChars (s : String) : String := ⟨s.data.filter keptAmountChar⟩

/-- Whether the original string contains both `(` and `)` (the
parenthesized-negative test of `_parse_amount`). -/
def hasParens (s : String) : Bool := s.data.contains '(' && s.data.contains ')'

/-- Digit run to a natural number. -/
def digitsToNat (cs : List Char) : Nat :=
  cs.foldl (fun acc c => 10 * acc + (c.toNat - '0'.toNat)) 0

/-- Parse an unsigned decimal coefficient the way Python `Decimal` accepts it
over the character set `[0-9.]`: digits with at most one decimal point and at
least one digit overall (`"5"`, `"5."`, `".5"`; not `""`, `"."`, `"1.2.3"`). -/
def parseUnsignedDec (cs : List Char) : Option ℚ :=
  match cs.splitOn '.' with
  | [ip] =>
    if ip ≠ [] && ip.all Char.isDigit then some (digitsToNat ip : ℚ) else none
  | [ip, fp] =>
    if (ip ++ fp) ≠ [] && (ip ++ fp).all Char.isDigit then
      some ((digitsToNat ip : ℚ) + (digitsToNat fp : ℚ) / ((10 : ℚ) ^ fp.length))
    else none
  | _ => none

/-- Python `Decimal(s)` restricted to the character set `[0-9.+-]` that
survives the cleaning regex: one optional leading sign then an unsigned
decimal coefficient; anything else raises `InvalidOperation`, modelled as
`none`. -/
def parseDecimal (s : String) : Option ℚ :=
  match s.data with
  | '-' :: rest => (parseUnsignedDec rest).map (fun q => -q)
  | '+' :: rest => parseUnsignedDec rest
  | rest => parseUnsignedDec rest

/-- `StatementParser._parse_amount`. Numeric inputs convert via
`Decimal(str(value))` (always succeeds for `int`); strings are cleaned,
`'-'` is prepended when the original has both parens, then parsed as a
`Decimal`; `None`/`''`/other types yield `None`. -/
def parseAmount : Value → Option ℚ
  | .vnull => none
  | .vint n => some (n : ℚ)
  | .vstr s =>
    if s = "" then none
    else
      let cleaned := stripAmountChars s
      let cleaned := if hasParens s then "-" ++ cleaned else cleaned
      parseDecimal cleaned
  | .vdate _ => none

/-- `_parse_amount(txn.get(col))`: a missing key behaves as `None`. -/
def parseAmountOpt : Option Value → Option ℚ
  | none => none
  | some v => parseAmount v

/-! ### Currency normalization (`normalize_currency`) -/

/-- The module-level `CURRENCY_MAPPING` table, in source (insertion) order. -/
def CURRENCY_MAPPING : List (String × String) :=
  [("taka", "BDT"), ("bangladesh taka", "BDT"), ("bangladeshi taka", "BDT"),
   ("tk", "BDT"), ("৳", "BDT"),
   ("dollar", "USD"), ("us dollar", "USD"), ("usd", "USD"), ("$", "USD"),
   ("euro", "EUR"), ("eur", "EUR"), ("€", "EUR"),
   ("pound", "GBP"), ("pound sterling", "GBP"), ("gbp", "GBP"), ("£", "GBP"),
   ("rupee", "INR"), ("indian rupee", "INR"), ("inr", "INR"), ("₹", "INR"),
   ("yen", "JPY"), ("japanese yen", "JPY"), ("jpy", "JPY"), ("¥", "JPY"),
   ("yuan", "CNY"), ("chinese yuan", "CNY"), ("renminbi", "CNY"), ("cny", "CNY"),
   ("riyal", "SAR"), ("saudi riyal", "SAR"), ("sar", "SAR"),
   ("dirham", "AED"), ("uae dirham", "AED"), ("aed", "AED"),
   ("ringgit", "MYR"), ("malaysian ringgit", "MYR"), ("myr", "MYR"),
   ("baht", "THB"), ("thai baht", "THB"), ("thb", "THB"),
   ("won", "KRW"), ("south korean won", "KRW"), ("krw", "KRW"),
   ("franc", "CHF"), ("swiss franc", "CHF"), ("chf", "CHF"),
   ("rand", "ZAR"), ("south african rand", "ZAR"), ("zar", "ZAR")]

/-- The 3-letter ISO allow-list checked before the mapping lookup. -/
def ALLOWED_ISO : List String :=
  ["USD", "EUR", "GBP", "INR", "JPY", "CNY", "BDT",
   "SAR", "AED", "MYR", "THB", "KRW", "CHF", "ZAR",
   "PKR", "LKR", "NPR", "CAD", "AUD", "NZD", "SGD"]

/-- A regex `\w` word character (boundary test of `\b`). -/
def isWordChar (c : Char) : Bool := c.isAlphanum || c = '_'

/-- Whether the pattern `pat` matches at the head of `s` as a whole word:
`pat` is a prefix of `s`, the previous character (if any) is not a word
character, and the character following the match (if any) is not a word
character. -/
def matchWordAt (pat : List Char) (prev : Option Char) (s : List Char) : Bool :=
  pat.isPrefixOf s
    && (match prev with | some c => !isWordChar c | none => true)
    && (match s.drop pat.length with | [] => true | c :: _ => !isWordChar c)

/-- Fuel-based scanner for `subStopwords` (structural recursion on the
fuel so that the definition reduces inside the kernel; every step consumes
at least one character, so fuel `s.length` always suffices). -/
def subStopAux : Nat → Option Char → List Char → List Char
  | _, _, [] => []
  | 0, _, s => s
  | fuel + 1, prev, c :: rest =>
    if matchWordAt "currency".data prev (c :: rest) then
      subStopAux fuel (some 'y') ((c :: rest).drop 8)
    else if matchWordAt "code".data prev (c :: rest) then
      subStopAux fuel (some 'e') ((c :: rest).drop 4)
    else c :: subStopAux fuel (some c) rest

/-- `re.sub(r'\b(currency|code)\b', '', s)`: scan left to right over the
original characters, removing non-overlapping whole-word occurrences of
`currency` (tried first, as in the regex alternation) and `code`; the
`prev` argument of the scanner is the last original character already
consumed (for the leading `\b` test). -/
def subStopwords (s : List Char) : List Char := subStopAux s.length none s

/-- First exact-key match in the mapping table. -/
def lookupExact (s : String) : List (String × String) → Option String
  | [] => none
  | (k, v) :: rest => if k = s then some v else lookupExact s rest

/-- First entry matching `key in cleaned or cleaned in key`. -/
def findPartial (s : String) : List (String × String) → Option String
  | [] => none
  | (k, v) :: rest =>
    if strContains s k || strContains k s then some v else findPartial s rest

/-- `normalize_currency` on a truthy input string: strip+lowercase, remove
the stopwords `currency`/`code` as whole words, strip again; return the
uppercased input if it is a 3-letter allow-listed code; else exact table
lookup; else first partial (substring either way) table match; else the
default `"BDT"`. -/
def normalizeCurrencyStr (raw : String) : String :=
  let c1 := lowerStr (pyStrip raw)
  let cleaned := pyStrip ⟨subStopwords c1.data⟩
  if cleaned.length == 3 && ALLOWED_ISO.contains (upperStr cleaned) then upperStr cleaned
  else
    match lookupExact cleaned CURRENCY_MAPPING with
    | some code => code
    | none =>
      match findPartial cleaned CURRENCY_MAPPING with
      | some code => code
      | none => "BDT"

/-- The cleaned form a currency string is matched under: strip, lowercase,
remove the `currency`/`code` stopwords, strip again (the `cleaned` local of
`normalize_currency`). -/
def currencyCleaned (s : String) : String :=
  pyStrip ⟨subStopwords (lowerStr (pyStrip s)).data⟩

/-- `normalize_currency(currency_str)`: falsy input (None, empty string,
zero) maps to the default `"BDT"`; otherwise the string form of the input
is normalized. -/
def normalizeCurrency (v : Value) : String :=
  if v.truthy then normalizeCurrencyStr v.pyStr else "BDT"

/-- Every code `normalize_currency` can return: the default, the ISO
allow-list and the mapping table's values. -/
def VALID_CODES : List String := "BDT" :: ALLOWED_ISO ++ CURRENCY_MAPPING.map Prod.snd

/-! ### Date parsing (`StatementParser._parse_date`) -/

/-- Gregorian leap year. -/
def isLeapYear (y : Nat) : Bool := y % 4 = 0 && (y % 100 ≠ 0 || y % 400 = 0)

/-- Days in a month of the proleptic Gregorian calendar. -/
def daysInMonth (y m : Nat) : Nat :=
  if m = 2 then (if isLeapYear y then 29 else 28)
  else if m = 4 || m = 6 || m = 9 || m = 11 then 30
  else 31

/-- A calendar-valid `datetime.date`, or `none`. -/
def mkValidDate (y m d : Nat) : Option PyDate :=
  if 1 ≤ y && y ≤ 9999 && 1 ≤ m && m ≤ 12 && 1 ≤ d && d ≤ daysInMonth y m then
    some ⟨y, m, d⟩
  else none

/-- A token made of decimal digits only (and non-empty). -/
def allDigits (t : List Char) : Bool := !t.isEmpty && t.all Char.isDigit

/-- Split a character list at every separator, keeping empty groups. -/
def splitChars (p : Char → Bool) (cs : List Char) : List (List Char) :=
  cs.foldr
    (fun c acc =>
      if p c then [] :: acc
      else
        match acc with
        | g :: gs => (c :: g) :: gs
        | [] => [[c]])
    [[]]

/-- A date-token separator in the modelled general parser. -/
def isDateSep (c : Char) : Bool := c = '-' || c = '/' || c = '.' || c = ' '

/-- Modelled from the spec: the external day-first-preferring general date
parser (`dateutil.parser.parse(s, dayfirst=True)` — third-party code, not
part of this repository). The spec describes it as "a day-first-preferring,
locale-tolerant general date parser"; we model the numeric three-token
forms it resolves: tokens split on `-`, `/`, `.` or space; a 4-digit first
token is read year-month-day; otherwise the first two tokens are read
day-month (day first), falling back to month-day only when the day-first
reading is not a valid calendar date; a trailing 2-digit year is expanded
into the 2000s. Anything else is unparseable (`none`, the model of
`ParserError`). -/
def dateutilParseDayfirst (s : String) : Option PyDate :=
  let toks := (splitChars isDateSep s.data).filter (fun t => !t.isEmpty)
  match toks with
  | [a, b, c] =>
    if allDigits a && allDigits b && allDigits c then
      if a.length = 4 then mkValidDate (digitsToNat a) (digitsToNat b) (digitsToNat c)
      else
        let yr := if c.length ≤ 2 then 2000 + digitsToNat c else digitsToNat c
        match mkValidDate yr (digitsToNat b) (digitsToNat a) with
        | some d => some d
        | none => mkValidDate yr (digitsToNat a) (digitsToNat b)
    else none
  | _ => none

/-- `StatementParser._parse_date`: already-typed dates pass through
unchanged; falsy or non-string values give `None`; strings go through the
day-first general parser, with any parse error caught and turned into
`None`. -/
def parseDate : Value → Option PyDate
  | .vdate d => some d
  | .vnull => none
  | .vint _ => none
  | .vstr s => if s = "" then none else dateutilParseDayfirst s

/-! ### Amount and type extraction (`StatementParser._extract_amount_and_type`) -/

/-- `StatementParser.DEBIT_INDICATORS`. -/
def DEBIT_INDICATORS : List String :=
  ["debit", "dr", "withdrawal", "paid_out", "withdrawals", "withdraw"]

/-- `StatementParser.CREDIT_INDICATORS`. -/
def CREDIT_INDICATORS : List String :=
  ["credit", "cr", "deposit", "paid_in", "deposits"]

/-- The debit/credit column detection loop: for each column, if its
lowercased name contains a debit indicator it becomes the debit column,
otherwise if it contains a credit indicator it becomes the credit column
(later matches overwrite earlier ones, as in the source loop). -/
def findDebitCreditCols (columns : List String) : Option String × Option String :=
  columns.foldl
    (fun acc col =>
      let l := lowerStr col
      if DEBIT_INDICATORS.any (fun ind => strContains l ind) then (some col, acc.2)
      else if CREDIT_INDICATORS.any (fun ind => strContains l ind) then (acc.1, some col)
      else acc)
    (none, none)

/-- The branch of strategy 1 taken once both a debit and a credit column
exist: a parsed non-zero debit value wins, else a parsed non-zero credit
value, else fall through (`none`). -/
def dualColumnResult (dv cv : Option ℚ) : Option (ℚ × String) :=
  match dv with
  | some d =>
    if d ≠ 0 then some (|d|, "debit")
    else
      match cv with
      | some c => if c ≠ 0 then some (|c|, "credit") else none
      | none => none
  | none =>
    match cv with
    | some c => if c ≠ 0 then some (|c|, "credit") else none
    | none => none

/-- Strategy 2 of `_extract_amount_and_type` (the `'amount' in col_lower`
loop): the first column whose lowercased name contains `amount` and whose
value parses (even to zero) classifies by sign — negative is a debit,
non-negative a credit. -/
def amountColumnScan (txn : Row) : List String → Option (ℚ × String)
  | [] => none
  | col :: rest =>
    if strContains (lowerStr col) "amount" then
      match parseAmountOpt (rowGet txn col) with
      | some v => if v < 0 then some (|v|, "debit") else some (v, "credit")
      | none => amountColumnScan txn rest
    else amountColumnScan txn rest

/-- Strategy 3 of `_extract_amount_and_type` (the `col in txn` loop): the
first column present in the row whose value parses to a non-zero amount
yields its absolute value, with no transaction type. -/
def anyNumericScan (txn : Row) : List String → Option ℚ
  | [] => none
  | col :: rest =>
    match rowGet txn col with
    | some v =>
      match parseAmount v with
      | some q => if q ≠ 0 then some |q| else anyNumericScan txn rest
      | none => anyNumericScan txn rest
    | none => anyNumericScan txn rest

/-- The tail of `_extract_amount_and_type` after the debit/credit-column
strategies have fallen through: the `amount`-named-column scan and then
the any-numeric-column scan. -/
def afterIndicatorStrategies (txn : Row) (columns : List String) :
    Option ℚ × Option String :=
  match amountColumnScan txn columns with
  | some (a, t) => (some a, some t)
  | none =>
    match anyNumericScan txn columns with
    | some a => (some a, none)
    | none => (none, none)

/-- `StatementParser._extract_amount_and_type`, with the source's early
returns written as a cascade: dual debit/credit columns first, then a
single-sided debit-only or credit-only column, then the `amount` column
scan, then any numeric column. -/
def extractAmountAndType (txn : Row) (columns : List String) :
    Option ℚ × Option String :=
  match findDebitCreditCols columns with
  | (some dcol, some ccol) =>
    match dualColumnResult (parseAmountOpt (rowGet txn dcol))
        (parseAmountOpt (rowGet txn ccol)) with
    | some (a, t) => (some a, some t)
    | none => afterIndicatorStrategies txn columns
  | (some dcol, none) =>
    match parseAmountOpt (rowGet txn dcol) with
    | some d =>
      if d ≠ 0 then (some |d|, some "debit") else afterIndicatorStrategies txn columns
    | none => afterIndicatorStrategies txn columns
  | (none, some ccol) =>
    match parseAmountOpt (rowGet txn ccol) with
    | some c =>
      if c ≠ 0 then (some |c|, some "credit") else afterIndicatorStrategies txn columns
    | none => afterIndicatorStrategies txn columns
  | (none, none) => afterIndicatorStrategies txn columns

/-! ### Column-type inference and schema detection -/

/-- The numeric-sample counting loop of `_infer_column_type`: non-null
`int`/`float` values count, and strings count when they parse as an
amount. -/
def countNumericSamples (vals : List Value) : Nat :=
  vals.foldl
    (fun acc v =>
      match v with
      | .vint _ => acc + 1
      | .vstr s => if (parseAmount (.vstr s)).isSome then acc + 1 else acc
      | _ => acc)
    0

/-- `StatementParser._infer_column_type`: name-based rules first (`date` in
the name gives `date`; a debit/credit indicator or `balance`/`amount` in
the name gives `currency`), then the sample-value test
`numeric_count > len(sample_values) * 0.5` (an exact comparison, written
here as `2 * numeric_count > len`). -/
def inferColumnType (columnName : String) (sampleValues : List Value) : String :=
  let l := lowerStr columnName
  if strContains l "date" then "date"
  else if (DEBIT_INDICATORS ++ CREDIT_INDICATORS).any (fun ind => strContains l ind) then
    "currency"
  else if strContains l "balance" || strContains l "amount" then "currency"
  else if 2 * countNumericSamples sampleValues > sampleValues.length then "currency"
  else "text"

/-- Per-column metadata (`{'type': ..., 'display_name': ...}`). -/
structure ColumnMeta where
  type : String
  display_name : String
deriving DecidableEq, Repr

/-- The detected transaction schema. -/
structure Schema where
  columns : List String
  column_metadata : List (String × ColumnMeta)
deriving DecidableEq, Repr

/-- One page's extracted payload (`PageResponse`); a missing key of the
Python dict behaves exactly like the empty default taken by `.get`. -/
structure PageResponse where
  customer_details : List (String × Value) := []
  bank_details : List (String × Value) := []
  transaction_columns : List String := []
  transactions : List Row := []
  confidence_scores : List (String × ℚ) := []
deriving DecidableEq, Repr

/-- The column list of `_detect_schema`: from the first response with a
non-empty `transaction_columns`, else the default schema. -/
def detectColumns : List PageResponse → List String
  | [] => ["date", "description", "amount", "balance"]
  | r :: rest => if r.transaction_columns ≠ [] then r.transaction_columns else detectColumns rest

/-- The pooled type-inference sample of `_detect_schema`: the first five
transactions of every response. -/
def sampleTransactions (responses : List PageResponse) : List Row :=
  responses.flatMap (fun r => r.transactions.take 5)

/-- The value a sample row contributes for a column (`txn.get(col)`; a
missing key is Python `None`, i.e. null). -/
def sampleValue (txn : Row) (col : String) : Value :=
  match rowGet txn col with
  | some v => v
  | none => .vnull

/-- `StatementParser._detect_schema`. -/
def detectSchema (responses : List PageResponse) : Schema :=
  let columns := detectColumns responses
  let samples := sampleTransactions responses
  { columns := columns
    column_metadata :=
      columns.map (fun col =>
        (col, { type := inferColumnType col (samples.map (fun t => sampleValue t col))
                display_name := col })) }

/-! ### Transaction normalization (`_normalize_transaction`, `_extract_date`) -/

/-- `StatementParser.DATE_COLUMNS`. -/
def DATE_COLUMNS : List String :=
  ["date", "Date", "DATE",
   "transaction_date", "Transaction Date", "TRANSACTION DATE",
   "txn_date", "Txn Date", "TXN DATE",
   "posting_date", "Posting Date", "POSTING DATE",
   "value_date", "Value Date", "VALUE DATE",
   "booking_date", "Booking Date", "BOOKING DATE"]

/-- The alias loop of `_extract_date`: the first date-column alias present
in the row with a truthy value that parses as a date. -/
def dateFromAliases (txn : Row) : List String → Option PyDate
  | [] => none
  | col :: rest =>
    match rowGet txn col with
    | some v =>
      if v.truthy then
        match parseDate v with
        | some d => some d
        | none => dateFromAliases txn rest
      else dateFromAliases txn rest
    | none => dateFromAliases txn rest

/-- `StatementParser._extract_date`: the alias loop, then the schema's
first column as a fallback. -/
def extractDate (txn : Row) (schema : Schema) : Option PyDate :=
  match dateFromAliases txn DATE_COLUMNS with
  | some d => some d
  | none =>
    match schema.columns with
    | [] => none
    | firstCol :: _ =>
      match rowGet txn firstCol with
      | some v => if v.truthy then parseDate v else none
      | none => none

/-- A `NormalizedTransaction`. -/
structure NormalizedTxn where
  data : Row
  transaction_date : Option PyDate
  amount : Option ℚ
  transaction_type : Option String
  page_number : Nat
  row_index : Nat
deriving DecidableEq, Repr

/-- `StatementParser._normalize_transaction`. -/
def normalizeTransaction (txn : Row) (schema : Schema) (pageNum rowIdx : Nat) :
    NormalizedTxn :=
  { data := txn
    transaction_date := extractDate txn schema
    amount := (extractAmountAndType txn schema.columns).1
    transaction_type := (extractAmountAndType txn schema.columns).2
    page_number := pageNum
    row_index := rowIdx }

/-! ### Deduplication (`_deduplicate_transactions`) -/

/-- Python `str(Decimal)` modelled canonically over `ℚ`: the shortest
decimal expansion when the denominator divides a power of ten, otherwise a
fraction rendering. (The `Decimal` scale — trailing zeros such as
`'100.00'` versus `'100.0'` — is not tracked by the `ℚ` model; none of the
verified properties depend on the exact rendering.) -/
def qToPyStr (q : ℚ) : String :=
  let sign := if q.num < 0 then "-" else ""
  match (List.range 29).find? (fun k => (10 ^ k) % q.den = 0) with
  | some k =>
    let scaled := q.num.natAbs * (10 ^ k / q.den)
    let s := toString scaled
    let s := if s.length ≤ k then String.mk (List.replicate (k + 1 - s.length) '0') ++ s else s
    let body :=
      if k = 0 then s
      else
        String.mk (s.data.take (s.length - k)) ++ "." ++ String.mk (s.data.drop (s.length - k))
    sign ++ body
  | none => sign ++ toString q.num.natAbs ++ "/" ++ toString q.den

/-- The description part of the dedup signature: the first key of the raw
row whose lowercased name contains `desc`, `narr` or `particular`, its
value rendered with `str` and truncated to 50 characters; empty when no
such key exists. -/
def descSignature : Row → String
  | [] => ""
  | (k, v) :: rest =>
    let kl := lowerStr k
    if strContains kl "desc" || strContains kl "narr" || strContains kl "particular" then
      String.mk (v.pyStr.data.take 50)
    else descSignature rest

/-- The dedup signature `f"{date_str}|{amount_str}|{desc}"` of
`_deduplicate_transactions` (`str(None) = 'None'` for absent date or
amount, since both keys are always present in the normalized dict). -/
def txnSignature (t : NormalizedTxn) : String :=
  (match t.transaction_date with | some d => d.toIso | none => "None") ++ "|" ++
    (match t.amount with | some q => qToPyStr q | none => "None") ++ "|" ++
    descSignature t.data

/-- The main loop of `_deduplicate_transactions`: keep a transaction when
its signature has not been seen, else drop it. -/
def dedupAux (seen : List String) : List NormalizedTxn → List NormalizedTxn
  | [] => []
  | t :: ts =>
    if seen.contains (txnSignature t) then dedupAux seen ts
    else t :: dedupAux (txnSignature t :: seen) ts

/-- `StatementParser._deduplicate_transactions` (lists of length at most
one are returned unchanged by the early exit). -/
def dedupTransactions (ts : List NormalizedTxn) : List NormalizedTxn :=
  if ts.length ≤ 1 then ts else dedupAux [] ts

/-! ### Detail merging (`_merge_customer_details`, `_merge_bank_details`) -/

/-- Truthiness of `d.get(k)` (a missing key is `None`, hence falsy). -/
def rowGetTruthy (r : Row) (k : String) : Bool :=
  match rowGet r k with
  | some v => v.truthy
  | none => false

/-- `StatementParser._merge_customer_details`: the first page whose
customer block is non-empty and has a truthy `account_holder_name` or
`account_number`; empty when none qualifies. -/
def mergeCustomerDetails : List PageResponse → List (String × Value)
  | [] => []
  | r :: rest =>
    if !r.customer_details.isEmpty
        && (rowGetTruthy r.customer_details "account_holder_name"
          || rowGetTruthy r.customer_details "account_number") then
      r.customer_details
    else mergeCustomerDetails rest

/-- Python dict assignment `d[k] = v`: replace in place, or append a new
key at the end. -/
def setKey : List (String × Value) → String → Value → List (String × Value)
  | [], k, v => [(k, v)]
  | (k', v') :: rest, k, v =>
    if k' = k then (k, v) :: rest else (k', v') :: setKey rest k v

/-- One step of the bank-details merge: adopt `v` when it is non-null and
the key is missing or currently null. -/
def updateBankEntry (merged : List (String × Value)) (k : String) (v : Value) :
    List (String × Value) :=
  if !(v == .vnull)
      && (match rowGet merged k with
          | none => true
          | some .vnull => true
          | some _ => false) then
    setKey merged k v
  else merged

/-- `StatementParser._merge_bank_details`: fold every page's bank block
with first-non-null-wins, then force the `currency` key through
`normalize_currency` (defaulting to `BDT` when absent). -/
def mergeBankDetails (responses : List PageResponse) : List (String × Value) :=
  let merged := responses.foldl
    (fun m r => r.bank_details.foldl (fun m kv => updateBankEntry m kv.1 kv.2) m) []
  setKey merged "currency"
    (match rowGet merged "currency" with
     | some v => .vstr (normalizeCurrency v)
     | none => .vstr "BDT")

/-! ### `parse_and_merge` -/

/-- The merged result of `StatementParser.parse_and_merge`. -/
structure ParsedData where
  customer_details : List (String × Value)
  bank_details : List (String × Value)
  transaction_schema : Schema
  transactions : List NormalizedTxn
deriving DecidableEq, Repr

/-- `StatementParser.parse_and_merge` (on a non-empty response list; the
empty list raises `ValueError` in the source and is guarded against by the
orchestrator before this is called). -/
def parseAndMerge (responses : List PageResponse) : ParsedData :=
  let schema := detectSchema responses
  let allTxns := responses.enum.flatMap
    (fun pair =>
      pair.2.transactions.enum.map
        (fun rowPair => normalizeTransaction rowPair.2 schema (pair.1 + 1) rowPair.1))
  { customer_details := mergeCustomerDetails responses
    bank_details := mergeBankDetails responses
    transaction_schema := schema
    transactions := dedupTransactions allTxns }

/-! ### Confidence aggregation (`StatementProcessor._extract_confidence_scores`) -/

/-- Lookup in a confidence-score mapping. -/
def lookupScore (name : String) : List (String × ℚ) → Option ℚ
  | [] => none
  | (k, v) :: rest => if k = name then some v else lookupScore name rest

/-- Python `scores.get(name, default)`. -/
def scoreGetD (scores : List (String × ℚ)) (name : String) (dflt : ℚ) : ℚ :=
  (lookupScore name scores).getD dflt

/-- The aggregated confidence summary (the non-empty case of
`_extract_confidence_scores`; the source returns `{}` when no page
reported scores, modelled as `none`). -/
structure ConfidenceAgg where
  avg_overall : ℚ
  avg_customer_details : ℚ
  avg_bank_details : ℚ
  avg_transactions : ℚ
  by_page : List (List (String × ℚ))
  min_overall : ℚ
  max_overall : ℚ
deriving DecidableEq, Repr

/-- `StatementProcessor._extract_confidence_scores`: collect the truthy
`confidence_scores` dicts, average each named score over those dicts with
`s.get(name, 0)`, and track min/max of `overall` with defaults `1.0` and
`0.0`. -/
def extractConfidenceScores (responses : List PageResponse) : Option ConfidenceAgg :=
  let allScores := responses.filterMap
    (fun r => if r.confidence_scores.isEmpty then none else some r.confidence_scores)
  match allScores with
  | [] => none
  | s0 :: rest =>
    let scores := s0 :: rest
    let n : ℚ := (scores.length : ℚ)
    let avg := fun name => (scores.map (fun s => scoreGetD s name 0)).sum / n
    some
      { avg_overall := avg "overall"
        avg_customer_details := avg "customer_details"
        avg_bank_details := avg "bank_details"
        avg_transactions := avg "transactions"
        by_page := scores
        min_overall := rest.foldl (fun m s => min m (scoreGetD s "overall" 1)) (scoreGetD s0 "overall" 1)
        max_overall := rest.foldl (fun m s => max m (scoreGetD s "overall" 0)) (scoreGetD s0 "overall" 0) }

/-! ### The orchestrator page loop (`StatementProcessor.process_statement`) -/

/-- The outcome of one page's extractor call: a payload, or the exception
message. -/
inductive PageResult where
  | ok (response : PageResponse)
  | err (message : String)
deriving DecidableEq, Repr

/-- One page handed to the loop (`img_info` plus its extractor outcome). -/
structure PageItem where
  page_number : Nat
  result : PageResult
deriving DecidableEq, Repr

/-- One `processing_logs` record (the wall-clock timestamp of the source
entry is outside the model). -/
structure LogEntry where
  page : Nat
  action : String
  status : String
  error : Option String
deriving DecidableEq, Repr

/-- The document-level processing state machine's states. -/
inductive ProcessingStatus where
  | pending
  | processing
  | completed
  | failed
deriving DecidableEq, Repr

/-- What a run of `process_statement` produces for one document. -/
structure Outcome where
  processing_status : ProcessingStatus
  error_message : Option String
  processing_logs : List LogEntry
  transaction_schema : Option Schema
  transactions : List NormalizedTxn
  confidence_scores : Option ConfidenceAgg
deriving Repr

/-- The log entry appended for one page: a `success` record, or an `error`
record carrying the exception text. -/
def pageLog (p : PageItem) : LogEntry :=
  match p.result with
  | .ok _ => ⟨p.page_number, "processing_page", "success", none⟩
  | .err e => ⟨p.page_number, "processing_page", "error", some e⟩

/-- The responses of the pages whose extractor call succeeded, in page
order (`llm_responses`). -/
def okResponses (pages : List PageItem) : List PageResponse :=
  pages.filterMap (fun p => match p.result with | .ok r => some r | .err _ => none)

/-- The page loop and completion logic of
`StatementProcessor.process_statement`: every page is attempted and logged
(an extractor exception is logged as an `error` entry and the loop
continues); when no page produced a response the run raises and ends
`failed` with an error message and no parsed data; otherwise the collected
responses are parsed and merged and the run ends `completed`. -/
def processStatement (pages : List PageItem) : Outcome :=
  let logs := pages.map pageLog
  match okResponses pages with
  | [] =>
    { processing_status := .failed
      error_message := some "Failed to process any pages successfully"
      processing_logs := logs
      transaction_schema := none
      transactions := []
      confidence_scores := none }
  | r :: rest =>
    let parsed := parseAndMerge (r :: rest)
    { processing_status := .completed
      error_message := none
      processing_logs := logs
      transaction_schema := some parsed.transaction_schema
      transactions := parsed.transactions
      confidence_scores := extractConfidenceScores (r :: rest) }

/-! ### Specification-side definitions

The following definitions transcribe the *specification's wording* (spec
§4.4 strategy list, and the claim sentences under test) rather than the
source; the claim theorems compare them with the source embeddings
above. -/

/-- Spec §4.4 strategy 1 (dual debit/credit columns) as a standalone
strategy returning a success/no-match result. -/
def specStrategy1 (txn : Row) (columns : List String) : Option (ℚ × Option String) :=
  match findDebitCreditCols columns with
  | (some dcol, some ccol) =>
    (dualColumnResult (parseAmountOpt (rowGet txn dcol))
        (parseAmountOpt (rowGet txn ccol))).map (fun p => (p.1, some p.2))
  | _ => none

/-- Spec §4.4 strategy 2 (single-sided debit-only or credit-only column)
as a standalone strategy. -/
def specStrategy2 (txn : Row) (columns : List String) : Option (ℚ × Option String) :=
  match findDebitCreditCols columns with
  | (some dcol, none) =>
    match parseAmountOpt (rowGet txn dcol) with
    | some d => if d ≠ 0 then some (|d|, some "debit") else none
    | none => none
  | (none, some ccol) =>
    match parseAmountOpt (rowGet txn ccol) with
    | some c => if c ≠ 0 then some (|c|, some "credit") else none
    | none => none
  | _ => none

/-- Spec §4.4 strategy 3 (signed single `amount` column) as a standalone
strategy. -/
def specStrategy3 (txn : Row) (columns : List String) : Option (ℚ × Option String) :=
  (amountColumnScan txn columns).map (fun p => (p.1, some p.2))

/-- Spec §4.4 strategy 4 (any numeric column, type left null) as a
standalone strategy. -/
def specStrategy4 (txn : Row) (columns : List String) : Option (ℚ × Option String) :=
  (anyNumericScan txn columns).map (fun a => (a, (none : Option String)))

/-- Spec §4.4: the ordered strategy chain — dual columns, then
single-sided, then signed `amount` column, then any numeric column, first
success wins; both fields null when nothing succeeds. -/
def specAmountTypeChain (txn : Row) (columns : List String) : Option ℚ × Option String :=
  match specStrategy1 txn columns <|> specStrategy2 txn columns
      <|> specStrategy3 txn columns <|> specStrategy4 txn columns with
  | some (a, t) => (some a, t)
  | none => (none, none)

/-- Claim C3's reading of `_parse_amount` on strings: strip everything
except digits, sign and decimal point, parse, then *negate the parsed
result* when the original string contains both parens. -/
def claimParseAmountStr (s : String) : Option ℚ :=
  if s = "" then none
  else
    (parseDecimal (stripAmountChars s)).map
      (fun q => if hasParens s then -q else q)

/-- Claim C4's reading of `_infer_column_type`: same name rules, but with
the value fallback comparing the parsing values against *the sampled
non-null values only* ("currency exactly when more than half of the
sampled non-null values parse successfully as an amount"). -/
def claimInferColumnType (columnName : String) (sampleValues : List Value) : String :=
  let l := lowerStr columnName
  if strContains l "date" then "date"
  else if (DEBIT_INDICATORS ++ CREDIT_INDICATORS).any (fun ind => strContains l ind) then
    "currency"
  else if strContains l "balance" || strContains l "amount" then "currency"
  else
    let nonNull := sampleValues.filter (fun v => !(v == .vnull))
    if 2 * nonNull.countP (fun v => (parseAmount v).isSome) > nonNull.length then "currency"
    else "text"

/-- The amended C4 value fallback: currency exactly when more than half of
*all* sampled values — nulls included in the denominator — parse
successfully as an amount. -/
def amendedInferColumnType (columnName : String) (sampleValues : List Value) : String :=
  let l := lowerStr columnName
  if strContains l "date" then "date"
  else if (DEBIT_INDICATORS ++ CREDIT_INDICATORS).any (fun ind => strContains l ind) then
    "currency"
  else if strContains l "balance" || strContains l "amount" then "currency"
  else if 2 * sampleValues.countP (fun v => (parseAmount v).isSome) > sampleValues.length then
    "currency"
  else "text"

/-- The deduplication described by claim C6: keep the first occurrence of
each signature, dropping every later row with the same signature. -/
def keepFirstBySig : List NormalizedTxn → List NormalizedTxn
  | [] => []
  | t :: ts =>
    t :: keepFirstBySig (ts.filter (fun u => !(txnSignature u == txnSignature t)))
termination_by ts => ts.length
decreasing_by
  simp only [List.length_cons]
  exact Nat.lt_succ_of_le (List.length_filter_le _ _)

/-- Claim C9's reading of confidence averaging: the average of a named
score over exactly the pages that reported that score. -/
def claimAvgScore (name : String) (responses : List PageResponse) : Option ℚ :=
  let reporting := responses.filterMap (fun r => lookupScore name r.confidence_scores)
  match reporting with
  | [] => none
  | _ => some (reporting.sum / (reporting.length : ℚ))

/-! ### Concrete fixtures used by witnesses and counterexamples -/

/-- Witness fixture: page 1 of the three-page scenario of claim C2. -/
def wPageResp1 : PageResponse where
  transaction_columns := ["Date", "Debit", "Credit"]
  transactions := [[("Date", .vstr "01-02-2024"), ("Debit", .vint 100), ("Credit", .vnull)]]
  confidence_scores := [("overall", 1)]

/-- Witness fixture: page 3 of the three-page scenario of claim C2. -/
def wPageResp3 : PageResponse where
  transactions := [[("Date", .vstr "02-02-2024"), ("Debit", .vnull), ("Credit", .vint 200)]]

/-- Witness fixture: the three-page document of claim C2 whose page 2
extractor call raises. -/
def wPages3 : List PageItem := [⟨1, .ok wPageResp1⟩, ⟨2, .err "boom"⟩, ⟨3, .ok wPageResp3⟩]

/-- Counterexample fixture for C9: a page reporting only an `overall`
score. -/
def cexRespOverall : PageResponse where
  confidence_scores := [("overall", 1)]

/-- Counterexample fixture for C9: a page reporting only a `transactions`
score (no `overall`). -/
def cexRespNoOverall : PageResponse where
  confidence_scores := [("transactions", 1/2)]

/-- The aggregate produced for the single-page input `[cexRespOverall]`
(used by the C9 witness). -/
def cexAgg : ConfidenceAgg :=
  { avg_overall := 1, avg_customer_details := 0, avg_bank_details := 0,
    avg_transactions := 0, by_page := [[("overall", 1)]],
    min_overall := 1, max_overall := 1 }

/-! ## Shared lemmas -/

lemma afterIndicator_eq_tail (txn : Row) (cols : List String) :
    afterIndicatorStrategies txn cols =
      (match specStrategy3 txn cols <|> specStrategy4 txn cols with
       | some (a, t) => (some a, t)
       | none => (none, none)) := by
  unfold afterIndicatorStrategies specStrategy3 specStrategy4
  rcases amountColumnScan txn cols with _ | ⟨a, t⟩ <;>
    rcases anyNumericScan txn cols with _ | q <;> simp

lemma extract_eq_specChain (txn : Row) (cols : List String) :
    extractAmountAndType txn cols = specAmountTypeChain txn cols := by
  have htail := afterIndicator_eq_tail txn cols
  unfold extractAmountAndType specAmountTypeChain specStrategy1 specStrategy2
  rcases hdc : findDebitCreditCols cols with ⟨_ | dcol, _ | ccol⟩
  · simpa only [hdc, Option.none_orElse] using htail
  · simp only [hdc, Option.none_orElse]
    rcases parseAmountOpt (rowGet txn ccol) with _ | c
    · simpa only [Option.none_orElse] using htail
    · by_cases hc : c = 0
      · simp [hc, htail]
      · simp [hc]
  · simp only [hdc, Option.none_orElse]
    rcases parseAmountOpt (rowGet txn dcol) with _ | d
    · simpa only [Option.none_orElse] using htail
    · by_cases hd : d = 0
      · simp [hd, htail]
      · simp [hd]
  · simp only [hdc]
    rcases dualColumnResult (parseAmountOpt (rowGet txn dcol))
        (parseAmountOpt (rowGet txn ccol)) with _ | ⟨a, t⟩
    · simpa only [Option.map_none, Option.none_orElse] using htail
    · simp

lemma dualColumnResult_nonneg {dv cv : Option ℚ} {p : ℚ × String}
    (h : dualColumnResult dv cv = some p) : 0 ≤ p.1 := by
  unfold dualColumnResult at h
  repeat split at h
  all_goals try simp_all
  all_goals try (rw [← h]; exact abs_nonneg _)
  all_goals repeat split at h
  all_goals simp_all
  all_goals (rw [← h]; exact abs_nonneg _)

lemma amountColumnScan_nonneg (txn : Row) :
    ∀ (cols : List String) (p : ℚ × String), amountColumnScan txn cols = some p → 0 ≤ p.1 := by
  intro cols
  induction cols with
  | nil => intro p h; simp [amountColumnScan] at h
  | cons col rest ih =>
    intro p h
    unfold amountColumnScan at h
    repeat split at h
    all_goals first
      | exact ih p h
      | (simp_all; rw [← h]; first | exact abs_nonneg _ | linarith)

lemma anyNumericScan_nonneg (txn : Row) :
    ∀ (cols : List String) (q : ℚ), anyNumericScan txn cols = some q → 0 ≤ q := by
  intro cols
  induction cols with
  | nil => intro q h; simp [anyNumericScan] at h
  | cons col rest ih =>
    intro q h
    unfold anyNumericScan at h
    repeat split at h
    all_goals first
      | exact ih q h
      | (simp_all; rw [← h]; exact abs_nonneg _)

lemma afterIndicator_fst_nonneg (txn : Row) (cols : List String) (q : ℚ)
    (h : (afterIndicatorStrategies txn cols).1 = some q) : 0 ≤ q := by
  unfold afterIndicatorStrategies at h
  split at h
  · rename_i a t hA
    simp at h
    rw [← h]
    simpa using amountColumnScan_nonneg txn cols (a, t) hA
  · split at h
    · rename_i a hN
      simp at h
      rw [← h]
      exact anyNumericScan_nonneg txn cols a hN
    · simp at h

lemma extract_fst_nonneg (txn : Row) (cols : List String) (q : ℚ)
    (h : (extractAmountAndType txn cols).1 = some q) : 0 ≤ q := by
  unfold extractAmountAndType at h
  split at h
  · rename_i dcol ccol
    split at h
    · rename_i a t hdual
      simp at h
      rw [← h]
      simpa using dualColumnResult_nonneg hdual
    · exact afterIndicator_fst_nonneg txn cols q h
  · rename_i dcol
    split at h
    · rename_i d hd
      split at h
      · simp at h
        rw [← h]
        exact abs_nonneg _
      · exact afterIndicator_fst_nonneg txn cols q h
    · exact afterIndicator_fst_nonneg txn cols q h
  · rename_i ccol
    split at h
    · rename_i c hc
      split at h
      · simp at h
        rw [← h]
        exact abs_nonneg _
      · exact afterIndicator_fst_nonneg txn cols q h
    · exact afterIndicator_fst_nonneg txn cols q h
  · exact afterIndicator_fst_nonneg txn cols q h

/-! ## Claim theorems -/

/-- C1: amount/type extraction follows the fixed strategy order of spec
§4.4 — dual debit/credit columns, then a single-sided indicator column,
then a signed `amount` column, then any numeric column — and on the three
fixture rows of the claim it returns `(100, debit)`, `(50, debit)` and
`(50, credit)` respectively. -/
theorem spec_c1_strategy_order :
    (∀ (txn : Row) (cols : List String),
        extractAmountAndType txn cols = specAmountTypeChain txn cols) ∧
      extractAmountAndType [("Debit", .vint 100), ("Credit", .vnull)]
          ["Date", "Debit", "Credit"] = (some 100, some "debit") ∧
      extractAmountAndType [("Amount", .vint (-50))] ["Date", "Amount"] =
        (some 50, some "debit") ∧
      extractAmountAndType [("Amount", .vint 50)] ["Date", "Amount"] =
        (some 50, some "credit") :=
  ⟨extract_eq_specChain, by decide, by decide, by decide⟩

/-- C5: for every raw row, schema, page number and row index, the
normalized transaction's `amount`, when present, is non-negative, and its
`data` field is the original input row unchanged. -/
theorem spec_c5_normalized_invariants :
    ∀ (txn : Row) (schema : Schema) (pageNum rowIdx : Nat),
      (normalizeTransaction txn schema pageNum rowIdx).data = txn ∧
        ∀ q, (normalizeTransaction txn schema pageNum rowIdx).amount = some q → 0 ≤ q :=
  fun txn schema _ _ =>
    ⟨rfl, fun q h => extract_fst_nonneg txn schema.columns q h⟩

/-- Witness for C5 at a concrete row: the fixture debit row keeps its raw
data verbatim and carries the non-negative amount 100. -/
theorem spec_c5_witness :
    (normalizeTransaction [("Debit", .vint 100)] ⟨["Debit"], []⟩ 1 0).data =
        [("Debit", .vint 100)] ∧
      (0 : ℚ) ≤ 100 :=
  ⟨(spec_c5_normalized_invariants [("Debit", .vint 100)] ⟨["Debit"], []⟩ 1 0).1,
    (spec_c5_normalized_invariants [("Debit", .vint 100)] ⟨["Debit"], []⟩ 1 0).2 100
      (by decide)⟩

lemma countNumeric_eq_countP (vals : List Value) :
    countNumericSamples vals = vals.countP (fun v => (parseAmount v).isSome) := by
  have aux : ∀ (l : List Value) (acc : Nat),
      l.foldl
        (fun acc v =>
          match v with
          | .vint _ => acc + 1
          | .vstr s => if (parseAmount (.vstr s)).isSome then acc + 1 else acc
          | _ => acc)
        acc = acc + l.countP (fun v => (parseAmount v).isSome) := by
    intro l
    induction l with
    | nil => intro acc; simp
    | cons v rest ih =>
      intro acc
      rw [List.foldl_cons, ih, List.countP_cons]
      cases v <;> simp [parseAmount] <;> (try split_ifs) <;> omega
  simpa using aux vals 0

/-- Counterexample for C4: for the indicator-free column name `ref` with
samples `[null, null, 1]`, more than half of the *non-null* values (the
single `1`) parse as an amount, so the claim predicts `currency`; the code
divides by the full sample count (nulls included) and returns `text`. -/
theorem spec_c4_counterexample :
    inferColumnType "ref" [.vnull, .vnull, .vint 1] = "text" ∧
      claimInferColumnType "ref" [.vnull, .vnull, .vint 1] = "currency" :=
  ⟨by decide, by decide⟩

/-- C4 (amended): name-based rules apply first exactly as claimed, but the
value fallback yields `currency` exactly when more than half of *all*
sampled values — nulls included in the denominator — parse successfully as
an amount. -/
theorem spec_c4_infer_type :
    ∀ (name : String) (vals : List Value),
      inferColumnType name vals = amendedInferColumnType name vals := by
  intro name vals
  unfold inferColumnType amendedInferColumnType
  rw [countNumeric_eq_countP]

/-- Counterexample for C3: for input `"(-5)"` the claim's strip-then-negate
reading produces `5` (strip yields `-5`, which parses, and the surrounding
parens negate it), but the code prepends `-` to the already-signed stripped
text, fails to parse `--5`, and returns null. -/
theorem spec_c3_counterexample :
    parseAmount (.vstr "(-5)") = none ∧ claimParseAmountStr "(-5)" = some 5 :=
  ⟨by decide, by decide⟩

/-- C3 (amended): `parse_amount` strips every character except digits,
sign and decimal point and treats a parenthesized value as negative *by
prepending a minus sign to the stripped text before parsing* (so stripped
text that already carries a sign fails to parse and yields null); null and
the empty string yield null, and the claim's four concrete examples hold. -/
theorem spec_c3_parse_amount :
    (∀ s : String,
        parseAmount (.vstr s) =
          parseDecimal (if hasParens s then "-" ++ stripAmountChars s else stripAmountChars s)) ∧
      parseAmount .vnull = none ∧
      parseAmount (.vstr "") = none ∧
      parseAmount (.vstr "(1,250.50)") = some (-1250.50) ∧
      parseAmount (.vstr "1,250.50") = some 1250.50 := by
  refine ⟨fun s => ?_, rfl, by decide, ?_, ?_⟩
  · by_cases hs : s = ""
    · subst hs; decide
    · simp [parseAmount, hs]
  · show some (-((1250 : ℚ) + 50 / 100)) = _
    norm_num
  · show some ((1250 : ℚ) + 50 / 100) = _
    norm_num

/-- C10: because `Description` contains the credit indicator `cr` (and no
debit indicator), it is detected as the credit column of the schema
`[Date, Description]`, so any row whose `Description` value parses to a
non-zero amount is classified `(abs(value), credit)` by the single-sided
credit branch; in particular the string `"5 items"` yields `(5, credit)`. -/
theorem spec_c10_description_credit :
    (∀ (row : Row) (v : Value),
        rowGet row "Description" = some v →
          findDebitCreditCols ["Date", "Description"] = (none, some "Description") ∧
            ∀ q, parseAmount v = some q → q ≠ 0 →
              extractAmountAndType row ["Date", "Description"] = (some |q|, some "credit")) ∧
      extractAmountAndType [("Date", .vstr "01-02-2024"), ("Description", .vstr "5 items")]
          ["Date", "Description"] = (some 5, some "credit") := by
  constructor
  · intro row v hv
    refine ⟨by decide, fun q hq hq0 => ?_⟩
    unfold extractAmountAndType
    rw [show findDebitCreditCols ["Date", "Description"] = (none, some "Description") from
      by decide]
    simp [parseAmountOpt, hv, hq, hq0]
  · decide

/-- Witness for C10: the general single-sided credit branch applied to the
concrete row `{"Description": "5 items"}`. -/
theorem spec_c10_witness :
    extractAmountAndType [("Description", .vstr "5 items")] ["Date", "Description"] =
      (some |(5 : ℚ)|, some "credit") :=
  (spec_c10_description_credit.1 [("Description", .vstr "5 items")] (.vstr "5 items")
      (by decide)).2 5 (by decide) (by decide)


lemma keepFirstBySig_cons (t : NormalizedTxn) (ts : List NormalizedTxn) :
    keepFirstBySig (t :: ts) =
      t :: keepFirstBySig (ts.filter (fun u => !(txnSignature u == txnSignature t))) := by
  rw [keepFirstBySig]

lemma dedupAux_eq_keepFirst :
    ∀ (ts : List NormalizedTxn) (seen : List String),
      dedupAux seen ts =
        keepFirstBySig (ts.filter (fun t => !(seen.contains (txnSignature t)))) := by
  intro ts
  induction ts with
  | nil => intro seen; simp [dedupAux, keepFirstBySig]
  | cons t rest ih =>
    intro seen
    by_cases hs : txnSignature t ∈ seen
    · have h1 : dedupAux seen (t :: rest) = dedupAux seen rest := by
        simp [dedupAux, hs]
      have h2 : List.filter (fun u => !seen.contains (txnSignature u)) (t :: rest) =
          List.filter (fun u => !seen.contains (txnSignature u)) rest := by
        simp [hs]
      rw [h1, h2, ih]
    · have h1 : dedupAux seen (t :: rest) = t :: dedupAux (txnSignature t :: seen) rest := by
        simp [dedupAux, hs]
      have h2 : List.filter (fun u => !seen.contains (txnSignature u)) (t :: rest) =
          t :: List.filter (fun u => !seen.contains (txnSignature u)) rest := by
        simp [hs]
      rw [h1, h2, ih, keepFirstBySig_cons, List.filter_filter]
      apply congrArg (List.cons t)
      apply congrArg keepFirstBySig
      apply List.filter_congr
      intro u _
      by_cases h3 : txnSignature u = txnSignature t <;>
        by_cases h4 : txnSignature u ∈ seen <;>
        simp [List.contains_cons, h3, h4]


lemma keepFirstBySig_sublist :
    ∀ (n : Nat) (ts : List NormalizedTxn), ts.length ≤ n → List.Sublist (keepFirstBySig ts) ts := by
  intro n
  induction n with
  | zero =>
    intro ts h
    have : ts = [] := List.eq_nil_of_length_eq_zero (Nat.le_zero.mp h)
    subst this
    simp [keepFirstBySig]
  | succ n ih =>
    intro ts h
    cases ts with
    | nil => simp [keepFirstBySig]
    | cons t rest =>
      rw [keepFirstBySig_cons]
      have h1 : List.Sublist
          (keepFirstBySig (rest.filter (fun u => !(txnSignature u == txnSignature t))))
          (rest.filter (fun u => !(txnSignature u == txnSignature t))) :=
        ih _ (le_trans (List.length_filter_le _ rest) (Nat.le_of_succ_le_succ h))
      exact List.Sublist.cons₂ t (h1.trans (List.filter_sublist rest))

lemma keepFirstBySig_idem :
    ∀ (n : Nat) (ts : List NormalizedTxn), ts.length ≤ n →
      keepFirstBySig (keepFirstBySig ts) = keepFirstBySig ts := by
  intro n
  induction n with
  | zero =>
    intro ts h
    have : ts = [] := List.eq_nil_of_length_eq_zero (Nat.le_zero.mp h)
    subst this
    simp [keepFirstBySig]
  | succ n ih =>
    intro ts h
    cases ts with
    | nil => simp [keepFirstBySig]
    | cons t rest =>
      rw [keepFirstBySig_cons, keepFirstBySig_cons]
      have hlen : (rest.filter (fun u => !(txnSignature u == txnSignature t))).length ≤ n :=
        le_trans (List.length_filter_le _ rest) (Nat.le_of_succ_le_succ h)
      have hK : List.Sublist
          (keepFirstBySig (rest.filter (fun u => !(txnSignature u == txnSignature t))))
          (rest.filter (fun u => !(txnSignature u == txnSignature t))) :=
        keepFirstBySig_sublist _ _ le_rfl
      have hall : ∀ u ∈ keepFirstBySig
          (rest.filter (fun u => !(txnSignature u == txnSignature t))),
          (!(txnSignature u == txnSignature t)) = true :=
        fun u hu => (List.mem_filter.mp (hK.subset hu)).2
      rw [List.filter_eq_self.mpr hall]
      exact congrArg (List.cons t) (ih _ hlen)


/-- C6: the deduplicator keeps exactly the first occurrence of each
signature (date-string, amount-string, first-50-characters of the first
description-like field) and drops later occurrences — it equals the
keep-first-occurrence function — preserves the relative order of kept
elements (it is a sublist of its input), and is idempotent. -/
theorem spec_c6_dedup_first_occurrence :
    ∀ ts : List NormalizedTxn,
      dedupTransactions ts = keepFirstBySig ts ∧
        List.Sublist (dedupTransactions ts) ts ∧
        dedupTransactions (dedupTransactions ts) = dedupTransactions ts := by
  have hmain : ∀ ts : List NormalizedTxn, dedupTransactions ts = keepFirstBySig ts := by
    intro ts
    unfold dedupTransactions
    by_cases hlen : ts.length ≤ 1
    · rw [if_pos hlen]
      match ts, hlen with
      | [], _ => simp [keepFirstBySig]
      | [t], _ => simp [keepFirstBySig_cons, keepFirstBySig]
    · rw [if_neg hlen, dedupAux_eq_keepFirst]
      congr 1
      simp
  intro ts
  refine ⟨hmain ts, ?_, ?_⟩
  · rw [hmain]
    exact keepFirstBySig_sublist ts.length ts le_rfl
  · rw [hmain ts, hmain (keepFirstBySig ts)]
    exact keepFirstBySig_idem _ _ le_rfl



lemma lookupExact_mem : ∀ (m : List (String × String)) (s v : String),
    lookupExact s m = some v → v ∈ m.map Prod.snd := by
  intro m
  induction m with
  | nil => intro s v h; simp [lookupExact] at h
  | cons kv rest ih =>
    intro s v h
    unfold lookupExact at h
    split at h
    · simp at h; simp [← h]
    · simp only [List.map_cons, List.mem_cons]
      exact Or.inr (ih s v h)

lemma findPartial_mem : ∀ (m : List (String × String)) (s v : String),
    findPartial s m = some v → v ∈ m.map Prod.snd := by
  intro m
  induction m with
  | nil => intro s v h; simp [findPartial] at h
  | cons kv rest ih =>
    intro s v h
    unfold findPartial at h
    split at h
    · simp at h; simp [← h]
    · simp only [List.map_cons, List.mem_cons]
      exact Or.inr (ih s v h)

lemma normalizeCurrencyStr_mem (s : String) : normalizeCurrencyStr s ∈ VALID_CODES := by
  unfold normalizeCurrencyStr VALID_CODES
  dsimp only
  split
  · rename_i hb
    have hmem : upperStr (pyStrip ⟨subStopwords (lowerStr (pyStrip s)).data⟩) ∈ ALLOWED_ISO :=
      List.mem_of_elem_eq_true (Bool.and_elim_right hb)
    exact List.mem_cons_of_mem _ (List.mem_append_left _ hmem)
  · split
    · rename_i code hlk
      exact List.mem_cons_of_mem _
        (List.mem_append_right _ (lookupExact_mem CURRENCY_MAPPING _ code hlk))
    · split
      · rename_i code hfp
        exact List.mem_cons_of_mem _
          (List.mem_append_right _ (findPartial_mem CURRENCY_MAPPING _ code hfp))
      · exact List.mem_cons_self _ _


/-- C7: `normalize_currency` is total; null maps to the default `BDT`;
`Taka`, `৳` and `tk` (and every key of the known mapping table) map to
their table codes; and the output always lies in the fixed set of 3-letter
ISO codes the function can produce. -/
theorem spec_c7_normalize_currency :
    normalizeCurrency .vnull = "BDT" ∧
      normalizeCurrency (.vstr "Taka") = "BDT" ∧
      normalizeCurrency (.vstr "৳") = "BDT" ∧
      normalizeCurrency (.vstr "tk") = "BDT" ∧
      (∀ kv ∈ CURRENCY_MAPPING, normalizeCurrency (.vstr kv.1) = kv.2) ∧
      (∀ v : Value, normalizeCurrency v ∈ VALID_CODES ∧ (normalizeCurrency v).length = 3) ∧
      (∀ s : String,
        ((currencyCleaned s).length == 3
            && ALLOWED_ISO.contains (upperStr (currencyCleaned s))) = false →
          lookupExact (currencyCleaned s) CURRENCY_MAPPING = none →
          findPartial (currencyCleaned s) CURRENCY_MAPPING = none →
          normalizeCurrency (.vstr s) = "BDT") ∧
      normalizeCurrency (.vstr "frobnicate") = "BDT" := by
  refine ⟨by decide, by decide, by decide, by decide, by decide, fun v => ?_,
    fun s hb hlk hfp => ?_, by decide⟩
  · have hlen : ∀ c ∈ VALID_CODES, c.length = 3 := by decide
    unfold normalizeCurrency
    by_cases ht : v.truthy
    · rw [if_pos ht]
      exact ⟨normalizeCurrencyStr_mem _, hlen _ (normalizeCurrencyStr_mem _)⟩
    · rw [if_neg ht]
      exact ⟨by decide, by decide⟩
  · unfold currencyCleaned at hb hlk hfp
    unfold normalizeCurrency
    by_cases ht : (Value.vstr s).truthy
    · rw [if_pos ht]
      unfold normalizeCurrencyStr
      simp only [Value.pyStr]
      simp [hb, hlk, hfp]
      intro h1 h2
      have htrue : ((pyStrip ⟨subStopwords (lowerStr (pyStrip s)).data⟩).length == 3
          && ALLOWED_ISO.contains
            (upperStr (pyStrip ⟨subStopwords (lowerStr (pyStrip s)).data⟩))) = true := by
        simp only [Bool.and_eq_true, beq_iff_eq]
        exact ⟨h1, List.elem_eq_true_of_mem h2⟩
      rw [htrue] at hb
      exact absurd hb (by simp)
    · rw [if_neg ht]


/-- Witness for C7: the table clause applied at the concrete entry
`("taka", "BDT")`, and the unrecognized-input clause applied at the
concrete string `"frobnicate"` (which matches no allow-list code, no exact
table key and no partial table key). -/
theorem spec_c7_witness :
    normalizeCurrency (.vstr "taka") = "BDT" ∧
      normalizeCurrency (.vstr "frobnicate") = "BDT" :=
  ⟨spec_c7_normalize_currency.2.2.2.2.1 ("taka", "BDT") (by decide),
    spec_c7_normalize_currency.2.2.2.2.2.2.1 "frobnicate" (by decide) (by decide) (by decide)⟩




/-- C8: `parse_date` is a total function returning a date or null:
already-typed dates pass through unchanged; null and non-string values
give null; the locale-ambiguous string `01-02-2024` parses day-first to
February 1st 2024 (not January 2nd); and every input the modelled general
parser rejects yields null rather than an exception. -/
theorem spec_c8_parse_date :
    (∀ d : PyDate, parseDate (.vdate d) = some d) ∧
      parseDate .vnull = none ∧
      (∀ n : Int, parseDate (.vint n) = none) ∧
      parseDate (.vstr "01-02-2024") = some ⟨2024, 2, 1⟩ ∧
      parseDate (.vstr "01-02-2024") ≠ some ⟨2024, 1, 2⟩ ∧
      ∀ s : String, dateutilParseDayfirst s = none → parseDate (.vstr s) = none := by
  refine ⟨fun d => rfl, rfl, fun n => rfl, by decide, by decide, fun s h => ?_⟩
  by_cases hs : s = ""
  · simp [parseDate, hs]
  · simp [parseDate, hs, h]


/-- Witness for C8: the unparseable-input clause at the concrete string
`"not a date"`. -/
theorem spec_c8_witness : parseDate (.vstr "not a date") = none :=
  spec_c8_parse_date.2.2.2.2.2 "not a date" (by decide)



lemma filterMap_filter_eq {α β : Type} (f : α → Option β) (p : α → Bool)
    (hfp : ∀ a, p a = false → f a = none) :
    ∀ l : List α, (l.filter p).filterMap f = l.filterMap f := by
  intro l
  induction l with
  | nil => rfl
  | cons a rest ih =>
    cases hp : p a
    · simp [List.filter_cons, hp, List.filterMap_cons, hfp a hp, ih]
    · simp [List.filter_cons, hp, List.filterMap_cons, ih]


/-- C9 (amended): pages with no confidence data at all are excluded from
the aggregation (dropping them does not change the result, and the result
is empty exactly when no page reported scores); each of the four named
scores (`overall`, `customer_details`, `bank_details`, `transactions`) is
averaged over the pages that reported *any* confidence data, with `0`
substituted for a missing named score — so a reporting page that lacks a
named score pulls that score's average toward zero; and the min and max of
`overall` are folded over the same reporting pages with defaults `1.0`
(min) and `0.0` (max) for pages missing that score. -/
theorem spec_c9_confidence_aggregation :
    (∀ rs : List PageResponse,
        extractConfidenceScores rs =
          extractConfidenceScores (rs.filter (fun r => !r.confidence_scores.isEmpty))) ∧
      (∀ rs : List PageResponse,
        extractConfidenceScores rs = none ↔ ∀ r ∈ rs, r.confidence_scores = []) ∧
      ∀ (rs : List PageResponse) (agg : ConfidenceAgg),
        extractConfidenceScores rs = some agg →
          agg.by_page = rs.filterMap
              (fun r => if r.confidence_scores.isEmpty then none else some r.confidence_scores) ∧
            agg.avg_overall =
              (agg.by_page.map (fun sc => scoreGetD sc "overall" 0)).sum /
                (agg.by_page.length : ℚ) ∧
            agg.avg_customer_details =
              (agg.by_page.map (fun sc => scoreGetD sc "customer_details" 0)).sum /
                (agg.by_page.length : ℚ) ∧
            agg.avg_bank_details =
              (agg.by_page.map (fun sc => scoreGetD sc "bank_details" 0)).sum /
                (agg.by_page.length : ℚ) ∧
            agg.avg_transactions =
              (agg.by_page.map (fun sc => scoreGetD sc "transactions" 0)).sum /
                (agg.by_page.length : ℚ) ∧
            ∃ s0 rest, agg.by_page = s0 :: rest ∧
              agg.min_overall =
                rest.foldl (fun m sc => min m (scoreGetD sc "overall" 1))
                  (scoreGetD s0 "overall" 1) ∧
              agg.max_overall =
                rest.foldl (fun m sc => max m (scoreGetD sc "overall" 0))
                  (scoreGetD s0 "overall" 0) := by
  refine ⟨fun rs => ?_, fun rs => ?_, fun rs agg h => ?_⟩
  · unfold extractConfidenceScores
    rw [filterMap_filter_eq _ _ (fun a ha => by
      have : a.confidence_scores.isEmpty = true := by simpa using ha
      simp [this])]
  · unfold extractConfidenceScores
    rcases hA : rs.filterMap
        (fun r => if r.confidence_scores.isEmpty then none else some r.confidence_scores)
      with _ | ⟨s0, rest⟩
    · simp only [hA]
      simp only [List.filterMap_eq_nil_iff] at hA
      constructor
      · intro _ r hr
        have hfr := hA r hr
        by_cases he : r.confidence_scores.isEmpty
        · exact List.isEmpty_iff.mp he
        · simp [he] at hfr
      · intro _; trivial
    · simp only [hA]
      constructor
      · intro hcontra; exact absurd hcontra (by simp)
      · intro hall
        have hnil : rs.filterMap
            (fun r => if r.confidence_scores.isEmpty then none
              else some r.confidence_scores) = [] :=
          List.filterMap_eq_nil_iff.mpr (fun r hr => by simp [hall r hr])
        rw [hnil] at hA
        exact (List.cons_ne_nil _ _ hA.symm).elim
  · unfold extractConfidenceScores at h
    rcases hA : rs.filterMap
        (fun r => if r.confidence_scores.isEmpty then none else some r.confidence_scores)
      with _ | ⟨s0, rest⟩
    · rw [hA] at h; simp at h
    · rw [hA] at h
      simp only [Option.some_inj] at h
      subst h
      exact ⟨hA.symm, rfl, rfl, rfl, rfl, s0, rest, rfl, rfl, rfl⟩


/-- Counterexample for C9: with one page reporting `{overall: 1}` and a
second reporting only `{transactions: 1/2}`, the claim's
per-score-reporting average of `overall` is `1`, but the code averages
`s.get('overall', 0)` over both reporting pages and yields `1/2`. -/
theorem spec_c9_counterexample :
    (extractConfidenceScores [cexRespOverall, cexRespNoOverall]).map
        ConfidenceAgg.avg_overall = some (1 / 2) ∧
      claimAvgScore "overall" [cexRespOverall, cexRespNoOverall] = some 1 ∧
      ((1 : ℚ) / 2) ≠ 1 := by
  refine ⟨?_, ?_, by norm_num⟩
  · simp [extractConfidenceScores, cexRespOverall, cexRespNoOverall, scoreGetD, lookupScore]
  · simp [claimAvgScore, cexRespOverall, cexRespNoOverall, lookupScore]

/-- Witness for C9: the aggregate-shape clause applied to the single-page
input `[cexRespOverall]`, whose aggregate is `cexAgg`. -/
theorem spec_c9_witness :
    cexAgg.by_page = [cexRespOverall].filterMap
        (fun r => if r.confidence_scores.isEmpty then none else some r.confidence_scores) ∧
      cexAgg.avg_overall =
        (cexAgg.by_page.map (fun sc => scoreGetD sc "overall" 0)).sum /
          (cexAgg.by_page.length : ℚ) ∧
      cexAgg.avg_customer_details =
        (cexAgg.by_page.map (fun sc => scoreGetD sc "customer_details" 0)).sum /
          (cexAgg.by_page.length : ℚ) ∧
      cexAgg.avg_bank_details =
        (cexAgg.by_page.map (fun sc => scoreGetD sc "bank_details" 0)).sum /
          (cexAgg.by_page.length : ℚ) ∧
      cexAgg.avg_transactions =
        (cexAgg.by_page.map (fun sc => scoreGetD sc "transactions" 0)).sum /
          (cexAgg.by_page.length : ℚ) ∧
      ∃ s0 rest, cexAgg.by_page = s0 :: rest ∧
        cexAgg.min_overall =
          rest.foldl (fun m sc => min m (scoreGetD sc "overall" 1))
            (scoreGetD s0 "overall" 1) ∧
        cexAgg.max_overall =
          rest.foldl (fun m sc => max m (scoreGetD sc "overall" 0))
            (scoreGetD s0 "overall" 0) :=
  spec_c9_confidence_aggregation.2.2 [cexRespOverall] cexAgg (by
    simp [extractConfidenceScores, cexRespOverall, cexAgg, scoreGetD, lookupScore])


lemma okResponses_eq_nil_iff (pages : List PageItem) :
    okResponses pages = [] ↔ ∀ p ∈ pages, ∀ r, p.result ≠ .ok r := by
  unfold okResponses
  rw [List.filterMap_eq_nil_iff]
  constructor
  · intro h p hp r hr
    have hnone := h p hp
    rw [hr] at hnone
    simp at hnone
  · intro h p hp
    cases hres : p.result with
    | ok r => exact absurd hres (h p hp r)
    | err e => simp


/-- C2: for every document run, one log entry is produced per attempted
page; a page whose extractor call raises contributes an `error` entry for
that page (and later pages are still processed); when at least one page
yields a usable response the run ends `completed` with the transactions
merged from exactly the successful pages' responses; when zero pages
succeed the run ends `failed` with an error message and no schema or
transactions. -/
theorem spec_c2_page_failure_tolerance :
    ∀ pages : List PageItem,
      (processStatement pages).processing_logs.length = pages.length ∧
        (∀ p ∈ pages, ∀ e, p.result = .err e →
          (⟨p.page_number, "processing_page", "error", some e⟩ : LogEntry) ∈
            (processStatement pages).processing_logs) ∧
        ((∃ p ∈ pages, ∃ r, p.result = .ok r) →
          (processStatement pages).processing_status = .completed ∧
            (processStatement pages).error_message = none ∧
            (processStatement pages).transactions =
              (parseAndMerge (okResponses pages)).transactions ∧
            (processStatement pages).transaction_schema =
              some (parseAndMerge (okResponses pages)).transaction_schema) ∧
        ((∀ p ∈ pages, ∀ r, p.result ≠ .ok r) →
          (processStatement pages).processing_status = .failed ∧
            (processStatement pages).error_message =
              some "Failed to process any pages successfully" ∧
            (processStatement pages).transaction_schema = none ∧
            (processStatement pages).transactions = []) := by
  intro pages
  have hlogs : (processStatement pages).processing_logs = pages.map pageLog := by
    unfold processStatement
    split <;> rfl
  refine ⟨by rw [hlogs]; exact List.length_map _ _, fun p hp e he => ?_, fun hex => ?_,
    fun hall => ?_⟩
  · rw [hlogs]
    have hentry : pageLog p = ⟨p.page_number, "processing_page", "error", some e⟩ := by
      simp [pageLog, he]
    rw [← hentry]
    exact List.mem_map_of_mem _ hp
  · have hne : okResponses pages ≠ [] := by
      intro hnil
      obtain ⟨p, hp, r, hr⟩ := hex
      exact ((okResponses_eq_nil_iff pages).mp hnil p hp r) hr
    rcases hok : okResponses pages with _ | ⟨r0, rest⟩
    · exact absurd hok hne
    · simp [processStatement, hok]
  · have hnil : okResponses pages = [] := (okResponses_eq_nil_iff pages).mpr hall
    simp [processStatement, hnil]


/-- Witness for C2: the concrete 3-page document whose page 2 raises ends
`completed`, logs an error entry for page 2, and takes its transactions
from pages 1 and 3; the all-failing single-page document ends `failed`
with no transactions. -/
theorem spec_c2_witness :
    (processStatement wPages3).processing_status = .completed ∧
      (processStatement wPages3).transactions =
        (parseAndMerge (okResponses wPages3)).transactions ∧
      (⟨2, "processing_page", "error", some "boom"⟩ : LogEntry) ∈
        (processStatement wPages3).processing_logs ∧
      (processStatement [⟨1, .err "a"⟩]).processing_status = .failed ∧
      (processStatement [⟨1, .err "a"⟩]).transactions = [] := by
  have hex : ∃ p ∈ wPages3, ∃ r, p.result = .ok r :=
    ⟨⟨1, .ok wPageResp1⟩, by decide, wPageResp1, rfl⟩
  have hall : ∀ p ∈ [(⟨1, .err "a"⟩ : PageItem)], ∀ r, p.result ≠ .ok r := by
    intro p hp r heq
    rw [List.mem_singleton] at hp
    subst hp
    simp at heq
  exact ⟨((spec_c2_page_failure_tolerance wPages3).2.2.1 hex).1,
    ((spec_c2_page_failure_tolerance wPages3).2.2.1 hex).2.2.1,
    (spec_c2_page_failure_tolerance wPages3).2.1 ⟨2, .err "boom"⟩ (by decide) "boom" rfl,
    ((spec_c2_page_failure_tolerance [⟨1, .err "a"⟩]).2.2.2 hall).1,
    ((spec_c2_page_failure_tolerance [⟨1, .err "a"⟩]).2.2.2 hall).2.2.2⟩


end BankParser
